import Mathlib

/-!
Verification of the cgminer Bitmine A1 driver core
(`A1-layer-SPI.c`, `driver-SPI-bitmine-A1.c`, `A1-board-selector-CCB.c`)
against its natural-language specification.

The C code is shallowly embedded: pure computations become Lean functions,
SPI exchanges become explicit oracles (`Nat → ...` streams or `Option`
results), and machine-integer arithmetic is modelled on `Nat`/`Int` with
explicit `% 2^w` where the C type could truncate.
-/

set_option maxRecDepth 8000

namespace A1

/-! ## SPI framer (`exec_cmd` in A1-layer-SPI.c)

`exec_cmd` sends `[cmd, chip_id, data...]` (tx_len = 4 + len bytes), then
clocks `poll_len` zero bytes and returns a pointer into the rx buffer at
`ack_pos`.  We embed the frame-geometry computation of lines 40-71. -/

structure ExecCmdFrame where
  tx_len : Int
  poll_len : Int
  ack_len : Int
  ack_pos : Int
  deriving Repr, DecidableEq

/-- Embeds `exec_cmd` (A1-layer-SPI.c lines 35-72): the transmit length,
the number of zero bytes polled after the command, and the offset into
`spi_rx` of the returned ACK pointer.  All quantities are C `int`s; the
inputs are bytes (`uint8_t`) and `num_chips` is a small nonnegative count,
so no 32-bit wrap can occur and plain `Int` arithmetic is exact. -/
def exec_cmd_frame (num_chips : Int) (chip_id : Int) (len : Int)
    (resp_len : Int) : ExecCmdFrame :=
  let tx_len : Int := 4 + len
  let poll_len : Int :=
    if chip_id = 0 then
      (if num_chips = 0 then resp_len + 32 else resp_len) + 4 * num_chips
    else
      resp_len + (4 * chip_id - 2)
  let ack_len : Int := tx_len + resp_len
  let ack_pos : Int := tx_len + poll_len - ack_len
  { tx_len := tx_len, poll_len := poll_len, ack_len := ack_len,
    ack_pos := ack_pos }

/-! ## PLL synthesizer (`get_pll_reg` in driver-SPI-bitmine-A1.c) -/

/-- The Euclidean GCD loop of `get_pll_reg` (lines 264-270):
`while (b != 0) { h = a % b; a = b; b = h; }` — written with explicit fuel
so that it is structurally recursive; `fuel = b + 1` always suffices
because the second argument strictly decreases. -/
def euclidGo : Nat → Nat → Nat → Nat
  | 0, a, _ => a
  | fuel + 1, a, b => if b = 0 then a else euclidGo fuel b (a % b)

/-- GCD of the reference and system clock, as computed by the C loop. -/
def euclid (a b : Nat) : Nat := euclidGo (b + 1) a b

structure PllReg where
  pre_div : Nat
  post_div : Nat
  fb_div : Nat
  reg0 : Nat
  reg1 : Nat
  deriving Repr, DecidableEq

/-- Embeds `get_pll_reg` (driver-SPI-bitmine-A1.c lines 243-304): derives
`(pre_div, post_div, fb_div)` from the reference and target system clock
in kHz and encodes the first two register bytes.  `uint8_t` stores truncate
with `% 256`; the inputs are positive C `int` clock rates well inside
32-bit range, so `Nat` arithmetic is exact elsewhere. -/
def get_pll_reg (ref_clock_khz sys_clock_khz : Nat) : PllReg :=
  let g := euclid ref_clock_khz sys_clock_khz
  let fb_div0 := sys_clock_khz / g
  let n0 := ref_clock_khz / g
  -- approximate multiplier if not exactly matchable (lines 274-280)
  let fbn :=
    if 511 < fb_div0 then
      let f := fb_div0 / n0
      let m := if f < 32 then 16 else if f < 64 then 8 else
               if f < 128 then 4 else if (256 : Nat) < 2 then 2 else 1
      (m * fb_div0 / n0, m)
    else (fb_div0, n0)
  let fb_div1 := fbn.1
  let n := fbn.2
  -- try to maximize post divider (lines 282-287)
  let post_div := if n &&& 3 = 0 then 3 else if n &&& 1 = 0 then 2 else 1
  -- remainder goes to pre_div (line 289)
  let pre_div0 := n / (1 <<< (post_div - 1))
  -- correct pre_div overflow (lines 291-294)
  let fbpre :=
    if 31 < pre_div0 then (31 * fb_div1 / pre_div0, 31)
    else (fb_div1, pre_div0)
  let fb_div := fbpre.1
  let pre_div := fbpre.2
  { pre_div := pre_div, post_div := post_div, fb_div := fb_div,
    reg0 := ((post_div <<< 6) ||| (pre_div <<< 1) ||| (fb_div >>> 8)) % 256,
    reg1 := fb_div % 256 }

/-- The two-byte PLL encoding of `get_pll_reg` lines 295-296, as a
standalone function of the three divider fields (`uint8_t` stores). -/
def pll_encode (pre_div post_div fb_div : Nat) : Nat × Nat :=
  (((post_div <<< 6) ||| (pre_div <<< 1) ||| (fb_div >>> 8)) % 256,
   fb_div % 256)

/-- Modelled from the spec: the source has no decoder; spec §3 fixes the
bit layout `byte0 = (post_div<<6) | (pre_div<<1) | (fb_div>>8)`,
`byte1 = fb_div & 0xff`, so decoding reads `post_div` from byte0 bits 7:6,
`pre_div` from byte0 bits 5:1, and `fb_div` from byte0 bit 0 concatenated
with byte1. -/
def pll_decode (b0 b1 : Nat) : Nat × Nat × Nat :=
  ((b0 >>> 1) &&& 31, b0 >>> 6, ((b0 &&& 1) <<< 8) ||| b1)

/-! Bit-twiddling facts used to reduce the PLL byte packing to plain
arithmetic; each is a finite check over the byte domain. -/

theorem pll_pack_eq_add : ∀ post < 4, ∀ pre < 32, ∀ hi < 2,
    ((post <<< 6) ||| (pre <<< 1) ||| hi) = post * 64 + pre * 2 + hi := by
  decide

theorem pll_unpack_eq_divmod : ∀ b0 < 256,
    (b0 >>> 1) &&& 31 = b0 / 2 % 32 ∧ b0 >>> 6 = b0 / 64 ∧
    b0 &&& 1 = b0 % 2 := by
  decide

theorem pll_fb_or_eq_add : ∀ hi < 2, ∀ lo < 256,
    ((hi <<< 8) ||| lo) = hi * 256 + lo := by
  decide

/-! ## Chain enumerator (`chain_detect`, driver-SPI-bitmine-A1.c 392-422)

The SPI bus is modelled as the first two rx bytes of the initial 6-byte
RESET transfer (`init`) plus a stream `polls` where `polls k` is the rx
word of the k-th subsequent 2-byte transfer (k ≥ 1). -/

def MAX_CHAIN_LENGTH : Nat := 64

/-- The scan loop of `chain_detect` (lines 408-419): at loop index `i` the
rx buffer holds `init` when `i = 1` and `polls (i-1)` afterwards; the loop
runs while `i < MAX_CHAIN_LENGTH * 2` and `rem` counts the remaining
iterations. -/
def chain_detect_scan (polls : Nat → Nat × Nat) :
    Nat × Nat → Nat → Nat → Nat
  | _, _, 0 => 0
  | rx, i, rem + 1 =>
    if rx.1 = 0x04 ∧ rx.2 = 0 then i / 2 + 1
    else chain_detect_scan polls (polls i) (i + 1) rem

/-- Embeds `chain_detect`: send the 6-byte broadcast RESET (whose
full-duplex rx starts with `init`), then scan 2-byte idle words; returns
the detected `num_chips`, or 0 when the bound is exceeded. -/
def chain_detect (init : Nat × Nat) (polls : Nat → Nat × Nat) : Nat :=
  chain_detect_scan polls init 1 (MAX_CHAIN_LENGTH * 2 - 1)

/-! ## PLL lock verification (`check_chip_pll_lock`, `set_pll_config`)

READ_REG responses are modelled by an oracle
`env : Nat → Nat → Option LockRead`: `env chip n` is the outcome of the
n-th `cmd_READ_REG(a1, chip)` poll, `none` when the command fails,
`some r` when it succeeds with lock bit `r.lockBit` (`spi_rx[4] & 1`) and
readback bytes `r.rx2`, `r.rx3` (`spi_rx[2]`, `spi_rx[3]`). -/

structure LockRead where
  lockBit : Bool
  rx2 : Nat
  rx3 : Nat

def MAX_PLL_WAIT_CYCLES : Nat := 25

/-- The polling loop of `check_chip_pll_lock` (lines 231-238): on the
first poll whose READ_REG succeeds with the lock bit set, return whether
the two written bytes are read back; retry up to the fuel bound. -/
def pll_lock_go (env : Nat → Nat → Option LockRead) (chip_id wr0 wr1 : Nat) :
    Nat → Nat → Bool
  | _, 0 => false
  | n, fuel + 1 =>
    match env chip_id n with
    | some r =>
      if r.lockBit then wr0 = r.rx2 ∧ wr1 = r.rx3
      else pll_lock_go env chip_id wr0 wr1 (n + 1) fuel
    | none => pll_lock_go env chip_id wr0 wr1 (n + 1) fuel

/-- Embeds `check_chip_pll_lock` (driver-SPI-bitmine-A1.c 228-241):
up to `MAX_PLL_WAIT_CYCLES` (25) polls, 40 ms apart (time is not
modelled). -/
def check_chip_pll_lock (env : Nat → Nat → Option LockRead)
    (chip_id wr0 wr1 : Nat) : Bool :=
  pll_lock_go env chip_id wr0 wr1 0 MAX_PLL_WAIT_CYCLES

/-- The verification loop of `set_pll_config` (lines 315-326):
`for (i = from; i < to; i++)` where every iteration calls
`check_chip_pll_lock(a1, chip_id, writereg)` — with the function argument
`chip_id`, not the per-iteration `cid = i + 1`. -/
def set_pll_verify_go (env : Nat → Nat → Option LockRead)
    (chip_id wr0 wr1 : Nat) : Nat → Bool
  | 0 => true
  | count + 1 =>
    if check_chip_pll_lock env chip_id wr0 wr1 then
      set_pll_verify_go env chip_id wr0 wr1 count
    else false

/-- Embeds `set_pll_config` (driver-SPI-bitmine-A1.c 306-328).
`writeOk` is the outcome of `cmd_WRITE_REG` (and `get_pll_reg` never
returns NULL); `wr0`, `wr1` are the first two written register bytes.
The loop bounds are `from = 0, to = num_active_chips` for broadcast and
`from = to = chip_id - 1` for a targeted write. -/
def set_pll_config (env : Nat → Nat → Option LockRead)
    (num_active_chips : Nat) (chip_id : Nat) (writeOk : Bool)
    (wr0 wr1 : Nat) : Bool :=
  if ¬ writeOk then false
  else
    let f := if chip_id = 0 then 0 else chip_id - 1
    let t := if chip_id = 0 then num_active_chips else chip_id - 1
    set_pll_verify_go env chip_id wr0 wr1 (t - f)

/-! ## Nonce-result validation in the scanwork drain loop
(driver-SPI-bitmine-A1.c 1110-1133) -/

/-- What the drain loop does with a decoded `(chip_id, job_id)` before any
nonce submission. -/
inductive NonceAction where
  /-- `chip_id` out of `1..num_active_chips`: log and `continue`. -/
  | discardChip : NonceAction
  /-- job-id branch taken: `flush_spi` then `continue`. -/
  | flushJob : NonceAction
  /-- fall through to `chips[chip_id - 1].work[job_id - 1]`; the payload
  is the signed C index `job_id - 1` used into the 4-slot `work` array. -/
  | useSlot (chip_index : Nat) (work_index : Int) : NonceAction
  deriving Repr, DecidableEq

/-- Embeds the validation at driver-SPI-bitmine-A1.c lines 1113-1126,
including the verbatim condition `job_id < 1 && job_id > 4` of line 1118.
`chip_id` and `job_id` are `uint8_t` (`job_id = ret[0] >> 4` is 0..15). -/
def scan_result_action (num_active_chips : Nat) (chip_id job_id : Nat) :
    NonceAction :=
  if chip_id < 1 ∨ num_active_chips < chip_id then .discardChip
  else if job_id < 1 ∧ 4 < job_id then .flushJob
  else .useSlot (chip_id - 1) ((job_id : Int) - 1)

/-! ## Cooldown state machine (`check_disabled_chips`, lines 447-482) -/

structure Chip where
  num_cores : Int
  cooldown_begin : Int
  fail_count : Int
  disabled : Bool
  deriving Repr, DecidableEq

def COOLDOWN_MS : Int := 30 * 1000
def DISABLE_CHIP_FAIL_THRESHOLD : Int := 3

/-- Embeds `is_chip_disabled` (lines 425-429). -/
def is_chip_disabled (chip : Chip) : Bool :=
  chip.disabled ∨ chip.cooldown_begin ≠ 0

/-- Embeds one loop iteration of `check_disabled_chips` (lines 451-481)
for a single chip: `now` is `get_current_ms()` and `readOk` the outcome of
`cmd_READ_REG(a1, chip_id)`.  Returns the updated chip together with the
updated chain `num_cores`. -/
def check_disabled_step (now : Int) (readOk : Bool) (chip : Chip)
    (chain_num_cores : Int) : Chip × Int :=
  if ¬ is_chip_disabled chip then (chip, chain_num_cores)
  else if chip.disabled then (chip, chain_num_cores)
  else if now < chip.cooldown_begin + COOLDOWN_MS then
    (chip, chain_num_cores)
  else if ¬ readOk then
    let fc := chip.fail_count + 1
    if DISABLE_CHIP_FAIL_THRESHOLD < fc then
      ({ chip with fail_count := fc, disabled := true },
       chain_num_cores - chip.num_cores)
    else
      ({ chip with fail_count := fc, cooldown_begin := now },
       chain_num_cores)
  else
    ({ chip with cooldown_begin := 0, fail_count := 0 }, chain_num_cores)

/-! ## Auto-tuner (driver-SPI-bitmine-A1.c 514-663)

Per-chip tuning state mirrors `struct A1_autotune_stats` and the tuner
fields of `struct A1_chip`.  The global `A1_config_options` fields the
tuner reads are collected in `TunerConfig`.  `reset_nonce_stats` computes
the window length `wtime` with floating-point arithmetic; floats are not
embedded, so `wtime` is threaded in as a parameter — no claim depends on
its value.  `restart_chip`'s SPI outcome is the oracle flag `restartOk`. -/

structure AutotuneStats where
  shares_ok : Int
  shares_nok : Int
  start_time : Int
  end_time : Int
  sys_clk : Int
  deriving Repr, DecidableEq

structure TunerChip where
  hw_errors : Int
  nonces_found : Int
  at_prev : AutotuneStats
  at_current : AutotuneStats
  deriving Repr, DecidableEq

structure TunerConfig where
  enable_auto_tune : Bool
  lower_ratio_pm : Int
  upper_ratio_pm : Int
  lower_clk_khz : Int
  upper_clk_khz : Int
  deriving Repr, DecidableEq

def BAD_NONCE_COUNT : Int := 5
def MIN_NUM_NONCES : Int := 30
def CLOCK_DELTA : Int := 4 * 1000

/-- Embeds `reset_nonce_stats` (lines 517-528): roll the current window
into `at_prev`, zero the share counters and restart the window at `now`
with length `wtime` (the float-derived `(NONCE_INTERVAL_N * 1000.0) /
nonces_per_sec`, passed in). -/
def reset_nonce_stats (now wtime : Int) (chip : TunerChip) : TunerChip :=
  { chip with
    at_prev := chip.at_current
    at_current := { chip.at_current with
      shares_ok := 0, shares_nok := 0,
      start_time := now, end_time := now + wtime } }

/-- Embeds `get_nonce_ratio` (lines 531-537): permille of bad shares in
the current window, or −1 below `MIN_NUM_NONCES` samples.  All operands
are nonnegative in every reachable state, where C `int` division agrees
with `Int.div`'s use below. -/
def get_nonce_ratio (chip : TunerChip) : Int :=
  let shares_all := chip.at_current.shares_nok + chip.at_current.shares_ok
  if shares_all < MIN_NUM_NONCES then -1
  else (chip.at_current.shares_nok * 1000 + shares_all / 2) / shares_all

/-- Embeds `adjust_clock` (lines 585-602): reset the stats window, clamp
`sys_clk + clock_delta` to `[lower_clk_khz, upper_clk_khz]`, restart the
chip at the clamped clock and commit it on success. -/
def adjust_clock (cfg : TunerConfig) (now wtime : Int) (restartOk : Bool)
    (clock_delta : Int) (chip : TunerChip) : TunerChip × Bool :=
  let chip := reset_nonce_stats now wtime chip
  let new_clk := chip.at_current.sys_clk + clock_delta
  if new_clk = chip.at_current.sys_clk then (chip, false)
  else
    let new_clk :=
      if cfg.upper_clk_khz < new_clk then cfg.upper_clk_khz
      else if new_clk < cfg.lower_clk_khz then cfg.lower_clk_khz
      else new_clk
    if ¬ restartOk then (chip, false)
    else ({ chip with at_current := { chip.at_current with
              sys_clk := new_clk } }, true)

/-- Embeds `add_nonce_bad` (lines 603-628): count the hardware error and
bad share; from `BAD_NONCE_COUNT` bad shares on, evaluate the ratio and —
when auto-tune is enabled, the ratio exceeds `upper_ratio_pm` and the
clock is above the lower bound — step the clock down by `CLOCK_DELTA`;
in every other ratio-known branch reset the window. -/
def add_nonce_bad (cfg : TunerConfig) (now wtime : Int) (restartOk : Bool)
    (chip : TunerChip) : TunerChip × Bool :=
  let chip := { chip with
    hw_errors := chip.hw_errors + 1
    at_current := { chip.at_current with
      shares_nok := chip.at_current.shares_nok + 1 } }
  if chip.at_current.shares_nok < BAD_NONCE_COUNT then (chip, false)
  else
    let ratio := get_nonce_ratio chip
    if ratio < 0 then (chip, false)
    else if ¬ cfg.enable_auto_tune then (chip, false)
    else if cfg.upper_ratio_pm < ratio ∧
            cfg.lower_clk_khz < chip.at_current.sys_clk then
      adjust_clock cfg now wtime restartOk (-CLOCK_DELTA) chip
    else (reset_nonce_stats now wtime chip, false)

/-- Embeds `check_uptune` (lines 630-653): when the window has elapsed
with a known ratio below `lower_ratio_pm` and the clock is below the upper
bound, step the clock up by `CLOCK_DELTA`; otherwise reset the window when
the ratio is known. -/
def check_uptune (cfg : TunerConfig) (now wtime : Int) (restartOk : Bool)
    (chip : TunerChip) : TunerChip × Bool :=
  if cfg.upper_clk_khz ≤ chip.at_current.sys_clk then (chip, false)
  else if now < chip.at_current.end_time then (chip, false)
  else
    let ratio := get_nonce_ratio chip
    if ratio < 0 then (chip, false)
    else if ¬ cfg.enable_auto_tune then (chip, false)
    else if ratio < cfg.lower_ratio_pm then
      adjust_clock cfg now wtime restartOk CLOCK_DELTA chip
    else (reset_nonce_stats now wtime chip, false)

/-! ## Scanwork return value (driver-SPI-bitmine-A1.c 1211-1223) -/

/-- Two's-complement wrap of a mathematical integer into a signed 64-bit
value, for the C `int64_t ret`. -/
def int64_wrap (x : Int) : Int := (x + 2 ^ 63) % 2 ^ 64 - 2 ^ 63

/-- Embeds the epilogue of `A1_scanwork` (lines 1211-1221): returns the
`int64_t` result together with the chain's `nonce_ranges_processed`
accumulator after the pass.  `ret <<= 32` multiplies by `2^32` in
`int64_t` arithmetic. -/
def scanwork_return (nonce_ranges_processed : Int) : Int × Int :=
  if nonce_ranges_processed < 0 then (0, nonce_ranges_processed)
  else (int64_wrap (nonce_ranges_processed * 2 ^ 32), 0)

/-! ## CCB board selector temperature (A1-board-selector-CCB.c 115-147)

`ccb_get_temp` state: the active chain/board indices and the per-board
`last_temp` cache.  The I²C sensor is modelled by `openOk` (did
`i2c_slave_open` succeed) and `readVal` (`none` when `t->read` fails —
the code then proceeds with `retval = 0` — otherwise the raw byte). -/

/-- Embeds `ccb_get_temp`: returns the temperature and the updated
per-board `last_temp` cache. -/
def ccb_get_temp (sensor_id active_chain active_board : Nat)
    (last_temp : Nat → Nat) (openOk : Bool) (readVal : Option Nat) :
    Nat × (Nat → Nat) :=
  if sensor_id ≠ 0 then (0, last_temp)
  else if active_chain &&& 1 = 1 then (last_temp active_board, last_temp)
  else if ¬ openOk then (0, last_temp)
  else
    let retval0 := match readVal with
      | none => 0
      | some v => v % 256
    let retval :=
      if 100 < retval0 then
        if retval0 &&& 0x80 ≠ 0 then retval0 - 0x80 else 0
      else retval0
    (retval, fun b => if b = active_board then retval else last_temp b)

end A1

namespace A1

/-! # Claims -/

/-- C1: for every A1 command executed through `exec_cmd` with payload
length `len`, response length `resp_len` and target `chip_id`, the number
of zero bytes clocked after the command is `resp_len + 4*chip_id - 2` when
`chip_id ≠ 0`; `resp_len + 4*num_chips` when `chip_id = 0` and
`num_chips > 0`; and `resp_len + 32` when `chip_id = 0` and
`num_chips = 0`; and the returned pointer is at offset
`tx_len + poll_len - (tx_len + resp_len)` into the rx buffer. -/
theorem exec_cmd_poll_spec (num_chips chip_id len resp_len : Int)
    (h : 0 ≤ num_chips) :
    (chip_id ≠ 0 →
      (exec_cmd_frame num_chips chip_id len resp_len).poll_len
        = resp_len + 4 * chip_id - 2) ∧
    (chip_id = 0 → 0 < num_chips →
      (exec_cmd_frame num_chips chip_id len resp_len).poll_len
        = resp_len + 4 * num_chips) ∧
    (chip_id = 0 → num_chips = 0 →
      (exec_cmd_frame num_chips chip_id len resp_len).poll_len
        = resp_len + 32) ∧
    (exec_cmd_frame num_chips chip_id len resp_len).ack_pos
      = (exec_cmd_frame num_chips chip_id len resp_len).tx_len
        + (exec_cmd_frame num_chips chip_id len resp_len).poll_len
        - ((exec_cmd_frame num_chips chip_id len resp_len).tx_len
           + resp_len) := by
  refine ⟨fun hne => ?_, fun h0 hpos => ?_, fun h0 hz => ?_, ?_⟩ <;>
    simp only [exec_cmd_frame] <;> split_ifs <;> omega

/-- Witness for C1 at `num_chips = 3`, `chip_id = 2`, `len = 0`,
`resp_len = 6` (a READ_REG to chip 2 on a 3-chip chain), plus the two
broadcast cases. -/
theorem exec_cmd_poll_spec_witness :
    (exec_cmd_frame 3 2 0 6).poll_len = 6 + 4 * 2 - 2 ∧
    (exec_cmd_frame 3 0 2 0).poll_len = 0 + 4 * 3 ∧
    (exec_cmd_frame 0 0 2 0).poll_len = 0 + 32 ∧
    (exec_cmd_frame 3 2 0 6).ack_pos = 4 + 12 - (4 + 6) := by
  refine ⟨(exec_cmd_poll_spec 3 2 0 6 (by decide)).1 (by decide), ?_, ?_, ?_⟩
  · exact (exec_cmd_poll_spec 3 0 2 0 (by decide)).2.1 rfl (by decide)
  · exact (exec_cmd_poll_spec 0 0 2 0 (by decide)).2.2.1 rfl rfl
  · have h := (exec_cmd_poll_spec 3 2 0 6 (by decide)).2.2.2
    rw [h]
    decide

/-- C4 (counter-evidence for the code): the drain-loop validation
`job_id < 1 && job_id > 4` (driver-SPI-bitmine-A1.c line 1118) is always
false, so a result with in-range `chip_id = 1` and out-of-range
`job_id = 5` (resp. `job_id = 0`) is not rejected: `flush_spi` is not
reached and the nonce is routed to the nonexistent work slot index 4
(resp. -1) instead of a slot in 0..3. -/
theorem scan_result_job_id_not_validated :
    scan_result_action 1 1 5 = .useSlot 0 4 ∧
    scan_result_action 1 1 5 ≠ .flushJob ∧
    scan_result_action 1 1 0 = .useSlot 0 (-1) ∧
    scan_result_action 1 2 5 = .discardChip := by
  decide

/-- C5 (counterexample): for `ref_clk_khz = 16000` and
`sys_clk_khz = 800000` the synthesizer does derive `fb_div = 50`,
`pre_div = 1`, `post_div = 1`, but encodes
`byte0 = (1<<6)|(1<<1)|(50>>8) = 0x42`, not `0x64` as claimed. -/
theorem get_pll_reg_800MHz_byte0_not_0x64 :
    (get_pll_reg 16000 800000).reg0 = 0x42 ∧ (0x42 : Nat) ≠ 0x64 := by
  decide

/-- C5 (amended): for `ref_clk_khz = 16000` and `sys_clk_khz = 800000`
the PLL synthesizer derives `fb_div = 50`, `pre_div = 1`, `post_div = 1`
and encodes the first two register bytes as `byte0 = 0x42`,
`byte1 = 0x32`. -/
theorem get_pll_reg_800MHz :
    get_pll_reg 16000 800000 =
      { pre_div := 1, post_div := 1, fb_div := 50,
        reg0 := 0x42, reg1 := 0x32 } := by
  decide

/-- C9: at the end of a completed scanwork pass, a non-negative
`nonce_ranges_processed` accumulator yields the int64 return value
`nonce_ranges_processed * 2^32` (the shift does not wrap for any C `int`
value of the accumulator) and the accumulator is reset to 0; a negative
accumulator yields 0 and keeps its value for the next pass. -/
theorem scanwork_return_spec (nrp : Int)
    (hlo : -(2 ^ 31) ≤ nrp) (hhi : nrp < 2 ^ 31) :
    (0 ≤ nrp → scanwork_return nrp = (nrp * 2 ^ 32, 0)) ∧
    (nrp < 0 → scanwork_return nrp = (0, nrp)) := by
  constructor
  · intro hpos
    simp only [scanwork_return, int64_wrap, if_neg (by omega : ¬ nrp < 0)]
    have : (nrp * 2 ^ 32 + 2 ^ 63) % 2 ^ 64 = nrp * 2 ^ 32 + 2 ^ 63 := by
      apply Int.emod_eq_of_lt <;> nlinarith
    rw [this]
    simp only [Prod.mk.injEq]
    exact ⟨by ring, trivial⟩
  · intro hneg
    simp [scanwork_return, if_pos hneg]

/-- Witness for C9 at `nonce_ranges_processed = 3` and `-2`. -/
theorem scanwork_return_spec_witness :
    scanwork_return 3 = (3 * 2 ^ 32, 0) ∧ scanwork_return (-2) = (0, -2) := by
  exact ⟨(scanwork_return_spec 3 (by decide) (by decide)).1 (by decide),
         (scanwork_return_spec (-2) (by decide) (by decide)).2 (by decide)⟩

/-- C6: for every `pre_div ∈ [1,31]`, `post_div ∈ [1,3]`,
`fb_div ∈ [1,511]`, encoding the PLL fields as
`byte0 = (post_div<<6) | (pre_div<<1) | (fb_div>>8)`,
`byte1 = fb_div & 0xff` and then decoding recovers exactly the original
`(pre_div, post_div, fb_div)`. -/
theorem pll_roundtrip (pre_div post_div fb_div : Nat)
    (hpre1 : 1 ≤ pre_div) (hpre : pre_div ≤ 31)
    (hpost1 : 1 ≤ post_div) (hpost : post_div ≤ 3)
    (hfb1 : 1 ≤ fb_div) (hfb : fb_div ≤ 511) :
    pll_decode (pll_encode pre_div post_div fb_div).1
        (pll_encode pre_div post_div fb_div).2
      = (pre_div, post_div, fb_div) := by
  have h256 : (2 : Nat) ^ 8 = 256 := by norm_num
  have hsr : fb_div >>> 8 = fb_div / 256 := by
    rw [Nat.shiftRight_eq_div_pow, h256]
  have hdiv : fb_div / 256 < 2 := by omega
  have hadd : (post_div <<< 6) ||| (pre_div <<< 1) ||| (fb_div >>> 8)
      = post_div * 64 + pre_div * 2 + fb_div / 256 := by
    rw [hsr]
    exact pll_pack_eq_add post_div (by omega) pre_div (by omega) _ hdiv
  have hb0lt : post_div * 64 + pre_div * 2 + fb_div / 256 < 256 := by omega
  have he1 : (pll_encode pre_div post_div fb_div).1
      = post_div * 64 + pre_div * 2 + fb_div / 256 := by
    simp only [pll_encode]
    rw [hadd, Nat.mod_eq_of_lt hb0lt]
  have he2 : (pll_encode pre_div post_div fb_div).2 = fb_div % 256 := rfl
  obtain ⟨hu1, hu2, hu3⟩ := pll_unpack_eq_divmod _ hb0lt
  simp only [pll_decode, he1, he2]
  rw [hu1, hu2, hu3]
  rw [pll_fb_or_eq_add _ (by omega) _ (by omega)]
  simp only [Prod.mk.injEq]
  refine ⟨by omega, by omega, by omega⟩

/-- Witness for C6 at `(pre_div, post_div, fb_div) = (1, 1, 50)`. -/
theorem pll_roundtrip_witness :
    pll_decode (pll_encode 1 1 50).1 (pll_encode 1 1 50).2 = (1, 1, 50) :=
  pll_roundtrip 1 1 50 (by decide) (by decide) (by decide) (by decide)
    (by decide) (by decide)

/-- C7: a Cooling chip (`cooldown_begin ≠ 0`, not Disabled) is left
unchanged by `check_disabled_chips` while `now < cooldown_begin + 30000`;
once the cooldown has elapsed, a successful READ_REG returns it to Active
with `fail_count = 0` and `cooldown_begin = 0`; a failed READ_REG
increments `fail_count` and restarts the cooldown; when the incremented
`fail_count` exceeds 3 the chip becomes Disabled, the chain's `num_cores`
drops by the chip's `num_cores`, and Disabled chips are never touched
again. -/
theorem check_disabled_cooling_spec (now : Int) (readOk : Bool)
    (chip : Chip) (cores : Int)
    (hcool : chip.cooldown_begin ≠ 0) (hdis : chip.disabled = false) :
    (now < chip.cooldown_begin + COOLDOWN_MS →
      check_disabled_step now readOk chip cores = (chip, cores)) ∧
    (chip.cooldown_begin + COOLDOWN_MS ≤ now → readOk = true →
      check_disabled_step now readOk chip cores
        = ({ chip with cooldown_begin := 0, fail_count := 0 }, cores)) ∧
    (chip.cooldown_begin + COOLDOWN_MS ≤ now → readOk = false →
      chip.fail_count + 1 ≤ DISABLE_CHIP_FAIL_THRESHOLD →
      check_disabled_step now readOk chip cores
        = ({ chip with fail_count := chip.fail_count + 1,
                       cooldown_begin := now }, cores)) ∧
    (chip.cooldown_begin + COOLDOWN_MS ≤ now → readOk = false →
      DISABLE_CHIP_FAIL_THRESHOLD < chip.fail_count + 1 →
      check_disabled_step now readOk chip cores
        = ({ chip with fail_count := chip.fail_count + 1, disabled := true },
           cores - chip.num_cores)) ∧
    (∀ (c : Chip) (k : Int), c.disabled = true →
      check_disabled_step now readOk c k = (c, k)) := by
  refine ⟨fun h1 => ?_, fun h1 h2 => ?_, fun h1 h2 h3 => ?_,
          fun h1 h2 h3 => ?_, fun c k hc => ?_⟩ <;>
    simp only [check_disabled_step, is_chip_disabled] <;>
    split_ifs <;>
    simp_all <;>
    omega

/-- Witness for C7: a chip cooling since t = 1000 ms with `fail_count = 3`
observed at `now = 31000` with a failing READ_REG becomes Disabled and
the chain loses its 32 cores; the same chip with a successful READ_REG
goes back to Active; before the deadline it is untouched. -/
theorem check_disabled_cooling_spec_witness :
    check_disabled_step 31000 false
        ⟨32, 1000, 3, false⟩ 100 = (⟨32, 1000, 4, true⟩, 68) ∧
    check_disabled_step 31000 true
        ⟨32, 1000, 3, false⟩ 100 = (⟨32, 0, 0, false⟩, 100) ∧
    check_disabled_step 30000 false
        ⟨32, 1000, 3, false⟩ 100 = (⟨32, 1000, 3, false⟩, 100) := by
  refine ⟨?_, ?_, ?_⟩
  · exact (check_disabled_cooling_spec 31000 false ⟨32, 1000, 3, false⟩ 100
      (by decide) rfl).2.2.2.1 (by decide) rfl (by decide)
  · exact (check_disabled_cooling_spec 31000 true ⟨32, 1000, 3, false⟩ 100
      (by decide) rfl).2.1 (by decide) rfl
  · exact (check_disabled_cooling_spec 30000 false ⟨32, 1000, 3, false⟩ 100
      (by decide) rfl).1 (by decide)

/-- C2 (counter-evidence for the code): `set_pll_config` passes its own
`chip_id` argument — not the loop's `cid = i + 1` — to
`check_chip_pll_lock`, and for a targeted write its loop bounds
`from = to = chip_id - 1` run zero iterations.  On a 2-chip chain: a
targeted PLL write to chip 1 returns true although chip 1 never answers a
READ_REG; a broadcast PLL write returns true although chip 2 never
answers, because both loop iterations poll chip id 0. -/
theorem set_pll_config_verification_bug :
    set_pll_config (fun _ _ => none) 2 1 true 0x42 0x32 = true ∧
    check_chip_pll_lock (fun _ _ => none) 1 0x42 0x32 = false ∧
    set_pll_config
        (fun chip _ => if chip = 0 then some ⟨true, 0x42, 0x32⟩ else none)
        2 0 true 0x42 0x32 = true ∧
    check_chip_pll_lock
        (fun chip _ => if chip = 0 then some ⟨true, 0x42, 0x32⟩ else none)
        2 0x42 0x32 = false := by
  refine ⟨rfl, ?_, rfl, ?_⟩ <;> decide

/-- C10 (counterexample): with the CCB selector on an even chain index, a
raw thermistor byte of 232 (`0xE8`: above 100 with bit 7 set) has bit 7
cleared to 104 and is returned — and cached — without being re-validated
against the 100 °C limit, so the result is neither in 0..100 nor 0. -/
theorem ccb_get_temp_raw232_returns_104 :
    (ccb_get_temp 0 0 0 (fun _ => 0) true (some 232)).1 = 104 ∧
    ¬ (ccb_get_temp 0 0 0 (fun _ => 0) true (some 232)).1 ≤ 100 ∧
    (ccb_get_temp 0 0 0 (fun _ => 0) true (some 232)).2 0 = 104 := by
  refine ⟨rfl, by decide, rfl⟩

theorem ccb_and_128 : ∀ r < 256, (r &&& 0x80 ≠ 0 ↔ 128 ≤ r) := by decide

/-- C10 (amended): for `ccb_get_temp` with `sensor_id = 0`: a raw reading
above 100 with bit 7 set has bit 7 cleared once and is returned without
re-validation (so values up to 127 are possible); any other reading above
100 yields 0; the value is cached per board and an odd active chain index
returns the cached per-board value without reading the sensor; hence, as
long as every cached value is at most 127, the returned temperature is
always in 0..127. -/
theorem ccb_get_temp_spec (active_chain active_board raw : Nat)
    (last_temp : Nat → Nat) (hraw : raw < 256)
    (hcache : ∀ b, last_temp b ≤ 127) :
    (active_chain &&& 1 = 1 →
      (ccb_get_temp 0 active_chain active_board last_temp true (some raw)).1
        = last_temp active_board) ∧
    (active_chain &&& 1 = 0 → 100 < raw → raw &&& 0x80 ≠ 0 →
      (ccb_get_temp 0 active_chain active_board last_temp true (some raw)).1
        = raw - 0x80) ∧
    (active_chain &&& 1 = 0 → 100 < raw → raw &&& 0x80 = 0 →
      (ccb_get_temp 0 active_chain active_board last_temp true (some raw)).1
        = 0) ∧
    (active_chain &&& 1 = 0 → raw ≤ 100 →
      (ccb_get_temp 0 active_chain active_board last_temp true (some raw)).1
        = raw) ∧
    (active_chain &&& 1 = 0 →
      (ccb_get_temp 0 active_chain active_board last_temp true (some raw)).2
          active_board
        = (ccb_get_temp 0 active_chain active_board last_temp true
            (some raw)).1) ∧
    ((ccb_get_temp 0 active_chain active_board last_temp true (some raw)).1
        ≤ 127 ∧
     ∀ b, (ccb_get_temp 0 active_chain active_board last_temp true
            (some raw)).2 b ≤ 127) := by
  have hmod : raw % 256 = raw := Nat.mod_eq_of_lt hraw
  refine ⟨fun hodd => ?_, fun hev h100 hbit => ?_, fun hev h100 hbit => ?_,
          fun hev h100 => ?_, fun hev => ?_, ?_, fun b => ?_⟩
  · simp [ccb_get_temp, hodd]
  · simp [ccb_get_temp, hev, hmod, h100, hbit]
  · simp [ccb_get_temp, hev, hmod, h100, hbit]
  · simp [ccb_get_temp, hev, hmod, Nat.not_lt.mpr h100]
  · simp [ccb_get_temp, hmod, hev]
  · simp only [ccb_get_temp, hmod]
    split_ifs <;> first | exact hcache _ | omega
  · by_cases hodd : active_chain &&& 1 = 1
    · simp [ccb_get_temp, hodd]
      exact hcache b
    · by_cases hbb : b = active_board
      · subst hbb
        simp only [ccb_get_temp, hmod]
        split_ifs <;> simp_all <;> omega
      · simp only [ccb_get_temp, hmod]
        split_ifs <;> simp [hbb, hcache]

/-- Witness for C10: raw 232 on even chain 0 returns 104 (bit 7 cleared,
no re-validation), raw 90 is returned as-is, raw 120 (no bit 7) yields 0,
and with the cache at 104 an odd chain index returns 104. -/
theorem ccb_get_temp_spec_witness :
    (ccb_get_temp 0 0 0 (fun _ => 99) true (some 232)).1 = 232 - 0x80 ∧
    (ccb_get_temp 0 0 0 (fun _ => 99) true (some 90)).1 = 90 ∧
    (ccb_get_temp 0 0 0 (fun _ => 99) true (some 120)).1 = 0 ∧
    (ccb_get_temp 0 1 0 (fun _ => 104) true (some 232)).1 = 104 ∧
    (ccb_get_temp 0 0 0 (fun _ => 99) true (some 232)).1 ≤ 127 := by
  refine ⟨?_, ?_, ?_, ?_, ?_⟩
  · exact (ccb_get_temp_spec 0 0 232 (fun _ => 99) (by decide)
      (fun _ => by norm_num)).2.1 rfl (by decide) (by decide)
  · exact (ccb_get_temp_spec 0 0 90 (fun _ => 99) (by decide)
      (fun _ => by norm_num)).2.2.2.1 rfl (by decide)
  · exact (ccb_get_temp_spec 0 0 120 (fun _ => 99) (by decide)
      (fun _ => by norm_num)).2.2.1 rfl (by decide) (by decide)
  · exact (ccb_get_temp_spec 1 0 232 (fun _ => 104) (by decide)
      (fun _ => by norm_num)).1 rfl
  · exact (ccb_get_temp_spec 0 0 232 (fun _ => 99) (by decide)
      (fun _ => by norm_num)).2.2.2.2.2.1

/-- C3 (counterexample): when the `[0x04, 0x00]` echo first appears after
the 1st 2-byte transfer beyond the initial command (k = 1, so the check at
loop index i = 2 sees it), `chain_detect` computes `num_chips = 2/2 + 1 =
2`, while the claim's formula `(k/2) + 1` gives `1/2 + 1 = 1`. -/
theorem chain_detect_counterexample :
    chain_detect (0, 0) (fun _ => (0x04, 0)) = 2 ∧
    (1 / 2 + 1 : Nat) = 1 ∧
    chain_detect (0, 0) (fun _ => (0x04, 0)) ≠ 1 / 2 + 1 := by
  refine ⟨by decide, rfl, by decide⟩

/-- Scanning from step `i` when the echo word first appears at poll `k`
(so it is examined at step `k + 1`) yields `(k + 1) / 2 + 1`. -/
theorem chain_detect_scan_first_echo (polls : Nat → Nat × Nat) (k : Nat)
    (hbefore : ∀ j, 1 ≤ j → j < k →
      ¬((polls j).1 = 0x04 ∧ (polls j).2 = 0))
    (hecho : (polls k).1 = 0x04 ∧ (polls k).2 = 0) :
    ∀ d i rem rx, 1 ≤ i → i + d = k + 1 → d < rem →
      (d = 0 → rx.1 = 0x04 ∧ rx.2 = 0) →
      (0 < d → ¬(rx.1 = 0x04 ∧ rx.2 = 0)) →
      chain_detect_scan polls rx i rem = (k + 1) / 2 + 1 := by
  intro d
  induction d with
  | zero =>
    intro i rem rx hi hik hrem h0 _
    obtain ⟨r, rfl⟩ : ∃ r, rem = r + 1 := ⟨rem - 1, by omega⟩
    have hik' : i = k + 1 := by omega
    subst hik'
    simp [chain_detect_scan, h0 rfl]
  | succ d ih =>
    intro i rem rx hi hik hrem h0 hpos
    obtain ⟨r, rfl⟩ : ∃ r, rem = r + 1 := ⟨rem - 1, by omega⟩
    have hne := hpos (by omega)
    simp only [chain_detect_scan]
    rw [if_neg hne]
    refine ih (i + 1) r (polls i) (by omega) (by omega) (by omega) ?_ ?_
    · intro hd0
      have hik'' : i = k := by omega
      rw [hik'']
      exact hecho
    · intro _
      exact hbefore i hi (by omega)

/-- Scanning never finds the echo inside the window: returns 0. -/
theorem chain_detect_scan_no_echo (polls : Nat → Nat × Nat) :
    ∀ rem i rx, ¬(rx.1 = 0x04 ∧ rx.2 = 0) →
      (∀ j, i ≤ j → j + 2 ≤ i + rem →
        ¬((polls j).1 = 0x04 ∧ (polls j).2 = 0)) →
      chain_detect_scan polls rx i rem = 0 := by
  intro rem
  induction rem with
  | zero =>
    intro i rx _ _
    rfl
  | succ r ih =>
    intro i rx h1 h2
    simp only [chain_detect_scan]
    rw [if_neg h1]
    by_cases hr : r = 0
    · subst hr
      rfl
    · refine ih (i + 1) (polls i) ?_ ?_
      · exact h2 i (le_refl i) (by omega)
      · intro j hj1 hj2
        exact h2 j (by omega) (by omega)

/-- C3 (amended): during chain detection, if the `[0x04, 0x00]` echo first
appears after the k-th 2-byte transfer beyond the initial 6-byte RESET
command (1 ≤ k ≤ 2·MAX_CHAIN_LENGTH − 2), then `num_chips = ((k+1)/2) + 1`
— the check made after the k-th transfer runs at loop index k + 1, so for
even k this agrees with the claim's `(k/2) + 1` and for odd k it does not;
the search is bounded and returns 0 when no echo appears in the window;
in particular an echo at the 6th 2-byte word yields `num_chips = 4`. -/
theorem chain_detect_spec :
    (∀ (init : Nat × Nat) (polls : Nat → Nat × Nat) (k : Nat),
      1 ≤ k → k ≤ 2 * MAX_CHAIN_LENGTH - 2 →
      ¬(init.1 = 0x04 ∧ init.2 = 0) →
      (∀ j, 1 ≤ j → j < k → ¬((polls j).1 = 0x04 ∧ (polls j).2 = 0)) →
      ((polls k).1 = 0x04 ∧ (polls k).2 = 0) →
      chain_detect init polls = (k + 1) / 2 + 1) ∧
    (∀ (init : Nat × Nat) (polls : Nat → Nat × Nat),
      ¬(init.1 = 0x04 ∧ init.2 = 0) →
      (∀ j, 1 ≤ j → j ≤ 2 * MAX_CHAIN_LENGTH - 2 →
        ¬((polls j).1 = 0x04 ∧ (polls j).2 = 0)) →
      chain_detect init polls = 0) ∧
    (∀ (init : Nat × Nat) (polls : Nat → Nat × Nat),
      ¬(init.1 = 0x04 ∧ init.2 = 0) →
      (∀ j, 1 ≤ j → j < 6 → ¬((polls j).1 = 0x04 ∧ (polls j).2 = 0)) →
      ((polls 6).1 = 0x04 ∧ (polls 6).2 = 0) →
      chain_detect init polls = 4) := by
  have hmcl : MAX_CHAIN_LENGTH * 2 - 1 = 127 := rfl
  have hbnd : 2 * MAX_CHAIN_LENGTH - 2 = 126 := rfl
  have main : ∀ (init : Nat × Nat) (polls : Nat → Nat × Nat) (k : Nat),
      1 ≤ k → k ≤ 2 * MAX_CHAIN_LENGTH - 2 →
      ¬(init.1 = 0x04 ∧ init.2 = 0) →
      (∀ j, 1 ≤ j → j < k → ¬((polls j).1 = 0x04 ∧ (polls j).2 = 0)) →
      ((polls k).1 = 0x04 ∧ (polls k).2 = 0) →
      chain_detect init polls = (k + 1) / 2 + 1 := by
    intro init polls k hk1 hk2 hinit hbefore hecho
    rw [hbnd] at hk2
    unfold chain_detect
    rw [hmcl]
    exact chain_detect_scan_first_echo polls k hbefore hecho k 1 127 init
      (le_refl 1) (by omega) (by omega)
      (fun h => absurd h (by omega)) (fun _ => hinit)
  refine ⟨main, ?_, ?_⟩
  · intro init polls hinit hnone
    unfold chain_detect
    rw [hmcl]
    refine chain_detect_scan_no_echo polls 127 1 init hinit ?_
    intro j hj1 hj2
    refine hnone j hj1 ?_
    rw [hbnd]
    omega
  · intro init polls hinit hbefore hecho
    have h := main init polls 6 (by omega) (by rw [hbnd]; omega) hinit
      hbefore hecho
    norm_num at h
    exact h

/-- Witness for C3 (amended): a mock stream answering the echo at the 6th
2-byte word yields `num_chips = 4`; a stream that never echoes yields 0. -/
theorem chain_detect_spec_witness :
    chain_detect (0, 0) (fun j => if j = 6 then (0x04, 0) else (0, 0)) = 4 ∧
    chain_detect (0, 0) (fun _ => (0, 0)) = 0 := by
  constructor
  · refine chain_detect_spec.2.2 (0, 0)
      (fun j => if j = 6 then (0x04, 0) else (0, 0)) (by norm_num) ?_
      (by norm_num)
    intro j hj1 hj2
    simp [show j ≠ 6 by omega]
  · refine chain_detect_spec.2.1 (0, 0) (fun _ => (0, 0)) (by norm_num) ?_
    intro j hj1 hj2
    norm_num

/-- A single `adjust_clock` call keeps `sys_clk` inside
`[lower_clk_khz, upper_clk_khz]`: either the chip restart fails and the
clock is unchanged, or the clamped new clock is committed. -/
theorem adjust_clock_in_bounds (cfg : TunerConfig) (now wtime delta : Int)
    (restartOk : Bool) (chip : TunerChip)
    (hlu : cfg.lower_clk_khz ≤ cfg.upper_clk_khz)
    (hlo : cfg.lower_clk_khz ≤ chip.at_current.sys_clk)
    (hhi : chip.at_current.sys_clk ≤ cfg.upper_clk_khz) :
    cfg.lower_clk_khz
      ≤ (adjust_clock cfg now wtime restartOk delta chip).1.at_current.sys_clk ∧
    (adjust_clock cfg now wtime restartOk delta chip).1.at_current.sys_clk
      ≤ cfg.upper_clk_khz := by
  simp only [adjust_clock, reset_nonce_stats]
  split_ifs <;> simp_all

/-- C8: assuming a chip's `sys_clk` starts within
`[lower_clk_khz, upper_clk_khz]`, both auto-tuner paths — `add_nonce_bad`
stepping by −4000 kHz and `check_uptune` stepping by +4000 kHz, each via
`adjust_clock` and its clamping — leave `sys_clk` within
`[lower_clk_khz, upper_clk_khz]`. -/
theorem autotune_clock_in_bounds (cfg : TunerConfig) (now wtime : Int)
    (restartOk : Bool) (chip : TunerChip)
    (hlu : cfg.lower_clk_khz ≤ cfg.upper_clk_khz)
    (hlo : cfg.lower_clk_khz ≤ chip.at_current.sys_clk)
    (hhi : chip.at_current.sys_clk ≤ cfg.upper_clk_khz) :
    (cfg.lower_clk_khz
       ≤ (add_nonce_bad cfg now wtime restartOk chip).1.at_current.sys_clk ∧
     (add_nonce_bad cfg now wtime restartOk chip).1.at_current.sys_clk
       ≤ cfg.upper_clk_khz) ∧
    (cfg.lower_clk_khz
       ≤ (check_uptune cfg now wtime restartOk chip).1.at_current.sys_clk ∧
     (check_uptune cfg now wtime restartOk chip).1.at_current.sys_clk
       ≤ cfg.upper_clk_khz) := by
  constructor
  · simp only [add_nonce_bad]
    split_ifs <;>
      first
        | exact adjust_clock_in_bounds cfg now wtime (-CLOCK_DELTA) restartOk
            _ hlu hlo hhi
        | exact ⟨hlo, hhi⟩
  · simp only [check_uptune]
    split_ifs <;>
      first
        | exact adjust_clock_in_bounds cfg now wtime CLOCK_DELTA restartOk
            _ hlu hlo hhi
        | exact ⟨hlo, hhi⟩

/-- Witness for C8: a chip at 404000 kHz with the default 400000/1100000
bounds, 5 bad shares out of 100 in the window (ratio 50‰ > 20‰), steps
down to 400000 — inside the bounds. -/
theorem autotune_clock_in_bounds_witness :
    (400000 : Int)
      ≤ (add_nonce_bad ⟨true, 3, 20, 400000, 1100000⟩ 0 10 true
          ⟨0, 0, ⟨0, 0, 0, 0, 400000⟩, ⟨95, 4, 0, 0, 404000⟩⟩).1.at_current.sys_clk ∧
    (add_nonce_bad ⟨true, 3, 20, 400000, 1100000⟩ 0 10 true
        ⟨0, 0, ⟨0, 0, 0, 0, 400000⟩, ⟨95, 4, 0, 0, 404000⟩⟩).1.at_current.sys_clk
      ≤ 1100000 ∧
    (add_nonce_bad ⟨true, 3, 20, 400000, 1100000⟩ 0 10 true
        ⟨0, 0, ⟨0, 0, 0, 0, 400000⟩, ⟨95, 4, 0, 0, 404000⟩⟩).1.at_current.sys_clk
      = 400000 := by
  have h := (autotune_clock_in_bounds ⟨true, 3, 20, 400000, 1100000⟩ 0 10 true
    ⟨0, 0, ⟨0, 0, 0, 0, 400000⟩, ⟨95, 4, 0, 0, 404000⟩⟩
    (by norm_num) (by norm_num) (by norm_num)).1
  exact ⟨h.1, h.2, by decide⟩

end A1
